import Mathlib

/-!
Shallow embedding of the switchboard reconciliation engine
(`src/switchboard/engine.py`) and proofs about its host/device
reconciliation behaviour.

Python dictionaries (`SwitchboardEngine.hosts`, `.devices`, `.modules`)
are embedded as association lists with insert-or-update semantics.
Network interaction is made explicit: every operation that performs an
HTTP request in the Python code takes the outcome of that request as an
argument.  A Python exception that escapes an operation is rendered as a
`PyErr` value returned next to the post-state; mutations performed
before the raise are kept in the post-state, exactly as the in-place
mutations of the Python objects persist when an exception propagates.
-/

deriving instance DecidableEq for Except

namespace Switchboard

/-- Python exceptions that the embedded engine code can raise. -/
inductive PyErr where
  | exn (msg : String)
  | keyError (key : String)
  | attributeError (msg : String)
  | nameError (missing : String)
  | requestError (msg : String)
deriving DecidableEq

/-- Association-list lookup, mirroring a Python dict read `m[k]` /
`k in m`.  Keys are unique by construction of `insert`. -/
def lookup {α : Type} : List (String × α) → String → Option α
  | [], _ => none
  | (k, v) :: rest, key => if k = key then some v else lookup rest key

/-- Python dict assignment `m[k] = v`: update the existing entry in
place, or append a new one. -/
def insert {α : Type} : List (String × α) → String → α → List (String × α)
  | [], k, v => [(k, v)]
  | (k', v') :: rest, k, v =>
    if k' = k then (k', v) :: rest else (k', v') :: insert rest k v

/-- Python `del m[k]` on a unique-key dict: drop the entry for `k`. -/
def eraseKey {α : Type} (m : List (String × α)) (k : String) : List (String × α) :=
  m.filter (fun kv => kv.1 ≠ k)

/-- Deleting every key of `ks` in turn, as the loop
`for old_device in self.hosts[host_url].devices: del self.devices[old_device]`
does (engine.py lines 94-96). -/
def eraseAll {α : Type} (m : List (String × α)) (ks : List String) : List (String × α) :=
  ks.foldl eraseKey m

/-- Python `m.update(other)` (engine.py line 101): insert every entry of
`other` into `m` in order. -/
def updateMap {α : Type} (m : List (String × α)) (l : List (String × α)) :
    List (String × α) :=
  l.foldl (fun acc kv => insert acc kv.1 kv.2) m

/-- Keys of an association list. -/
def keys {α : Type} (l : List (String × α)) : List String :=
  l.map Prod.fst

/-- Python truthiness of an optional string field (`if x:`): `None` and
the empty string are falsy. -/
def truthy : Option String → Bool
  | none => false
  | some s => s != ""

/-- Modelled from the spec: `RESTDevice` lives in
`src/switchboard/device.py`, which is not part of the repository
snapshot.  Per spec section 3, a Device Handle carries a unique `name`,
the owning `host_url`, the last observed `value` (opaque payload, none
until first observed) and an optional `error` message.  The setter
capability is not represented; none of the engine logic proved here
inspects it. -/
structure RESTDevice where
  name : String
  host_url : String
  value : Option String
  error : Option String
deriving DecidableEq

/-- Modelled from the spec: construction of a fresh `RESTDevice` from an
inventory entry (engine.py line 89); per spec section 3 a freshly
created handle has no observed value and no error. -/
def mkRESTDevice (dname hurl : String) : RESTDevice :=
  { name := dname, host_url := hurl, value := none, error := none }

/-- Modelled from the spec: `RESTDevice.update_value` (device.py is
missing); per spec section 4.3 it updates the stored value of the
device. -/
def RESTDevice.update_value (d : RESTDevice) (v : String) : RESTDevice :=
  { d with value := some v }

/-- Modelled from the spec: a module unit (`src/switchboard/module.py`
is not in the snapshot).  Per spec section 6 it exposes an
enabled/disabled flag and an optional initialization-error field. -/
structure SwitchboardModule where
  enabled : Bool
  error : Option String
deriving DecidableEq

/-- Embedding of `_Host` (engine.py lines 242-247): URL, last-poll
connectedness, aggregate error, and the set of owned device NAMES
(`set(new_devices.keys())` — strings, not device objects). -/
structure Host where
  url : String
  connected : Bool
  error : Option String
  devices : List String
deriving DecidableEq

/-- Embedding of `_Host.__init__` (engine.py lines 243-247). -/
def mkHost (url : String) (devices : List String) : Host :=
  { url := url, connected := false, error := none, devices := devices }

/-- Embedding of `_Host.on_error` (engine.py lines 250-256).  When the
host had no error, the message is stored; the subsequent loop
`for device in self.devices: device.error = "Host error"` assigns an
attribute on a `str` (the owned set holds device names), so with at
least one owned device it raises `AttributeError` after the message has
been stored. -/
def Host.on_error (h : Host) (msg : String) : Host × Option PyErr :=
  if truthy h.error then (h, none)
  else
    let h1 := { h with error := some msg }
    match h1.devices with
    | [] => (h1, none)
    | _ :: _ => (h1, some (.attributeError "str object has no attribute error"))

/-- Embedding of `_Host.on_no_error` (engine.py lines 259-265); the same
`device.error` attribute assignment on a `str` raises once the error is
cleared and the host owns at least one device. -/
def Host.on_no_error (h : Host) : Host × Option PyErr :=
  if truthy h.error then
    let h1 := { h with error := none }
    match h1.devices with
    | [] => (h1, none)
    | _ :: _ => (h1, some (.attributeError "str object has no attribute error"))
  else (h, none)

/-- Engine state: the `hosts`, `devices` and `modules` maps of
`SwitchboardEngine` (engine.py lines 26-32). -/
structure EngineState where
  hosts : List (String × Host)
  devices : List (String × RESTDevice)
  modules : List (String × SwitchboardModule)
deriving DecidableEq

/-- One entry of the `devices` list returned by `GET <host>/devices_info`;
the engine only reads its `name` field, whose presence is optional in
the raw JSON (`device["name"]` raises `KeyError` when absent,
engine.py line 76). -/
structure InfoEntry where
  name : Option String
deriving DecidableEq

/-- Outcome of the inventory fetch
`requests.get` on the devices_info endpoint followed by `.json()["devices"]`
(engine.py line 67): either some exception escaped the fetch/parse, or a
list of device entries was obtained. -/
inductive InfoOutcome where
  | fetchFail (e : PyErr)
  | ok (entries : List InfoEntry)
deriving DecidableEq

/-- One entry of the `devices` list of a parsed `/devices_value`
response; each of the `name`, `value` and `error` fields may be absent. -/
structure DeviceEntry where
  name : Option String
  value : Option String
  error : Option String
deriving DecidableEq

/-- Parsed JSON body of a `/devices_value` response: an optional
top-level `error` field and an optional `devices` list. -/
structure ValuesJson where
  error : Option String
  devices : Option (List DeviceEntry)
deriving DecidableEq

/-- Outcome of `requests.get` on the devices_value endpoint followed by
`.json()` (engine.py lines 181-192): the request raises, the body fails
to parse as JSON, or a parsed body is obtained. -/
inductive FetchOutcome where
  | unreachable
  | badJson
  | parsed (vj : ValuesJson)
deriving DecidableEq

/-- Embedding of `str.startswith` with the literal `http://` (engine.py line 57), stated
on the character list of the string. -/
def startsWithHttp (u : String) : Bool :=
  "http://".data.isPrefixOf u.data

/-- URL normalization of `upsert_host` (engine.py lines 57-58): prepend
`http://` unless the URL already starts with exactly that prefix. -/
def normalizeUrl (u : String) : String :=
  if startsWithHttp u then u else "http://" ++ u

/-- Embedding of the validation loop of `upsert_host` (engine.py lines
75-90): walk the fetched inventory building the `new_devices` dict;
raise on a missing `name` key, on a device name already seen on this
host, or on a device name owned by a different registered host. -/
def build_new_devices (devices : List (String × RESTDevice)) (hurl : String) :
    List InfoEntry → List (String × RESTDevice) →
    Except PyErr (List (String × RESTDevice))
  | [], acc => .ok acc
  | e :: rest, acc =>
    match e.name with
    | none => .error (.keyError "name")
    | some n =>
      if (lookup acc n).isSome then
        .error (.exn ("Device \"" ++ n ++ "\" exists twice on host " ++ hurl))
      else
        match lookup devices n with
        | some d =>
          if d.host_url ≠ hurl then
            .error (.exn ("Device \"" ++ n ++ "\" already exists for host " ++ d.host_url))
          else
            build_new_devices devices hurl rest (acc ++ [(n, mkRESTDevice n hurl)])
        | none =>
          build_new_devices devices hurl rest (acc ++ [(n, mkRESTDevice n hurl)])

/-- Embedding of `upsert_host` up to and including the state merge
(engine.py lines 57-102): normalize the URL, fetch the inventory,
validate it, then — only if validation succeeded — delete the previous
devices of an already-registered host, install the new devices into the
global map and store a fresh `_Host` record.  The concluding
value-refresh pass (line 105) is performed by `upsert_host` below. -/
def upsert_host_register (s : EngineState) (host_url : String)
    (info : InfoOutcome) : EngineState × Option PyErr :=
  let hurl := normalizeUrl host_url
  match info with
  | .fetchFail e => (s, some e)
  | .ok entries =>
    match build_new_devices s.devices hurl entries [] with
    | .error e => (s, some e)
    | .ok newDevs =>
      let devs0 :=
        match lookup s.hosts hurl with
        | some oldHost => eraseAll s.devices oldHost.devices
        | none => s.devices
      let devs1 := updateMap devs0 newDevs
      ({ s with devices := devs1,
                hosts := insert s.hosts hurl (mkHost hurl (keys newDevs)) }, none)

/-- Embedding of `_check_values_json_formatting`, per-device part
(engine.py lines 212-218): first entry missing `name`, or missing both
`value` and `error`, wins. -/
def check_device_entries (url : String) : List DeviceEntry → Option String
  | [] => none
  | e :: rest =>
    match e.name with
    | none => some ("Error for host " ++ url ++ ": found device with no name")
    | some n =>
      if e.value.isNone && e.error.isNone then
        some ("Error for host " ++ url ++ ": device " ++ n ++
          " has no value or error field")
      else check_device_entries url rest

/-- Embedding of `_check_values_json_formatting` (engine.py lines
203-218): top-level `error`, then missing `devices`, then the
per-device checks; `none` when the body is well formed. -/
def check_values_json_formatting (url : String) (vj : ValuesJson) : Option String :=
  match vj.error with
  | some e => some ("Error for host " ++ url ++ ": " ++ e)
  | none =>
    match vj.devices with
    | none => some ("Error for host " ++ url ++ ": no \"devices\" field")
    | some l => check_device_entries url l

/-- Embedding of `_update_device_value` (engine.py lines 221-238): an
unguarded lookup `self.devices[device_json["name"]]`, then either
record the error field, or clear a truthy device error and store the
new value. -/
def update_device_value (devs : List (String × RESTDevice)) (e : DeviceEntry) :
    List (String × RESTDevice) × Option PyErr :=
  match e.name with
  | none => (devs, some (.keyError "name"))
  | some n =>
    match lookup devs n with
    | none => (devs, some (.keyError n))
    | some d =>
      match e.error with
      | some err => (insert devs n { d with error := some err }, none)
      | none =>
        match e.value with
        | some v =>
          let d1 := if truthy d.error then { d with error := none } else d
          (insert devs n (d1.update_value v), none)
        | none => (devs, none)

/-- The per-entry loop `for device_json in values_json["devices"]`
(engine.py lines 199-200); a raise from `_update_device_value` aborts
the loop with the mutations made so far kept. -/
def apply_device_entries : List (String × RESTDevice) → List DeviceEntry →
    List (String × RESTDevice) × Option PyErr
  | devs, [] => (devs, none)
  | devs, e :: rest =>
    match update_device_value devs e with
    | (devs1, some err) => (devs1, some err)
    | (devs1, none) => apply_device_entries devs1 rest

/-- Loop body of `_update_devices_values` for one host (engine.py lines
177-200).  An unreachable host is marked disconnected and `on_error`
runs; a body that fails to parse as JSON reaches
the invalid-json message via `format(url)` where `url` is an
undefined name, so a `NameError` is raised before `on_error` is called;
a parsed body is structurally validated and, on success, `on_no_error`
runs and every entry is applied. -/
def refresh_host (devs : List (String × RESTDevice)) (h : Host)
    (out : FetchOutcome) : Host × List (String × RESTDevice) × Option PyErr :=
  match out with
  | .unreachable =>
    let h1 := { h with connected := false }
    let he := h1.on_error ("Unable to access host " ++ h1.url)
    (he.1, devs, he.2)
  | .badJson =>
    ({ h with connected := true }, devs, some (.nameError "url"))
  | .parsed vj =>
    let h1 := { h with connected := true }
    match check_values_json_formatting h1.url vj with
    | some msg =>
      let he := h1.on_error msg
      (he.1, devs, he.2)
    | none =>
      let he := h1.on_no_error
      match he.2 with
      | some err => (he.1, devs, some err)
      | none =>
        let de := apply_device_entries devs (vj.devices.getD [])
        (he.1, de.1, de.2)

/-- The host loop of `_update_devices_values` (engine.py lines
174-200): refresh hosts in map order; an exception escaping one host
aborts the whole pass, keeping the mutations made so far. -/
def refresh_hosts (resp : String → FetchOutcome) :
    List (String × Host) → List (String × RESTDevice) →
    List (String × Host) × List (String × RESTDevice) × Option PyErr
  | [], devs => ([], devs, none)
  | (k, h) :: rest, devs =>
    let r := refresh_host devs h (resp h.url)
    match r.2.2 with
    | some err => ((k, r.1) :: rest, r.2.1, some err)
    | none =>
      let rr := refresh_hosts resp rest r.2.1
      ((k, r.1) :: rr.1, rr.2.1, rr.2.2)

/-- Embedding of `_update_devices_values` (engine.py lines 174-200);
`resp` gives the `/devices_value` fetch outcome per host URL. -/
def update_devices_values (s : EngineState) (resp : String → FetchOutcome) :
    EngineState × Option PyErr :=
  let r := refresh_hosts resp s.hosts s.devices
  ({ s with hosts := r.1, devices := r.2.1 }, r.2.2)

/-- Embedding of the complete `upsert_host` (engine.py lines 51-105):
the register/merge phase followed, on success, by one immediate
value-refresh pass. -/
def upsert_host (s : EngineState) (host_url : String) (info : InfoOutcome)
    (resp : String → FetchOutcome) : EngineState × Option PyErr :=
  match upsert_host_register s host_url info with
  | (s1, some e) => (s1, some e)
  | (s1, none) => update_devices_values s1 resp

/-- The serialized body of the remote write,
`json.dumps` of the name/value dict
(engine.py line 159), kept as the name/value pair it encodes. -/
structure Payload where
  name : String
  value : String
deriving DecidableEq

/-- The PUT request issued by `set_remote_device_value`
(engine.py line 160). -/
structure WriteRequest where
  url : String
  payload : Payload
deriving DecidableEq

/-- Outcome of `requests.put(...)` and `r.json()` in
`set_remote_device_value`: the request itself raises, the response body
fails to parse, or a parsed body with an optional `error` field. -/
inductive PutOutcome where
  | unreachable
  | badBody (content : String)
  | parsed (error : Option String)
deriving DecidableEq

/-- Embedding of `set_remote_device_value` (engine.py lines 158-166):
serialize the name/value payload and PUT it to the owning host; a
response `error` field and an unparseable body are only printed (the
returned list holds the printed lines); engine state is never touched. -/
def set_remote_device_value (s : EngineState) (d : RESTDevice) (v : String)
    (r : PutOutcome) : EngineState × WriteRequest × List String × Option PyErr :=
  let req : WriteRequest :=
    { url := d.host_url ++ "/device_set", payload := { name := d.name, value := v } }
  match r with
  | .unreachable => (s, req, [], some (.requestError "put failed"))
  | .badBody c => (s, req, ["Exception parsing response: " ++ c], none)
  | .parsed (some e) => (s, req, ["Error: " ++ e], none)
  | .parsed none => (s, req, [], none)

/-- Embedding of `enable_switchboard_module` (engine.py lines 126-136):
the very first statement, `if not module_name in modules`, reads the
undefined global name `modules` (the enclosing Python module defines no
such global; the map lives at `self.modules`), so every call raises
`NameError` before touching any state. -/
def enable_switchboard_module (s : EngineState) (module_name : String) :
    EngineState × Option PyErr :=
  let _ := module_name
  (s, some (.nameError "modules"))

/-- Embedding of `disable_switchboard_module` (engine.py lines 139-143):
it reads the same undefined global name `modules`, so every call raises
`NameError` before touching any state. -/
def disable_switchboard_module (s : EngineState) (module_name : String) :
    EngineState × Option PyErr :=
  let _ := module_name
  (s, some (.nameError "modules"))

/-- Inventory entries all carrying a name, used to state the upsert
validation claims over plain name lists. -/
def mkInfoEntries (names : List String) : List InfoEntry :=
  names.map (fun n => ⟨some n⟩)

/-- Concrete fixture: host record of `http://a` owning device x, in
error state, used in closed instances of the theorems below. -/
def hostErrA : Host :=
  { url := "http://a", connected := true, error := some "down", devices := ["x"] }

/-- Concrete fixture: engine with host a (owning x, in error state) and
host b (owning y). -/
def stateAB : EngineState :=
  { hosts := [("http://a", hostErrA), ("http://b", mkHost "http://b" ["y"])],
    devices := [("x", mkRESTDevice "x" "http://a"),
                ("y", mkRESTDevice "y" "http://b")],
    modules := [] }

/-- Concrete fixture: engine with host a owning device x and host b
owning nothing, both freshly registered. -/
def stateTwo : EngineState :=
  { hosts := [("http://a", mkHost "http://a" ["x"]),
              ("http://b", mkHost "http://b" [])],
    devices := [("x", mkRESTDevice "x" "http://a")],
    modules := [] }

/-- Concrete fixture: engine with only host a, owning device x. -/
def stateOne : EngineState :=
  { hosts := [("http://a", mkHost "http://a" ["x"])],
    devices := [("x", mkRESTDevice "x" "http://a")],
    modules := [] }

/-- Concrete fixture: a structurally valid values response naming a
device unknown to the engine. -/
def ghostValues : ValuesJson :=
  { error := none,
    devices := some [{ name := some "ghost", value := some "1", error := none }] }

/-! Lemmas about the association-list dictionary operations. -/

@[simp] theorem keys_nil {α : Type} : keys ([] : List (String × α)) = [] := rfl

@[simp] theorem keys_cons {α : Type} (kv : String × α) (l : List (String × α)) :
    keys (kv :: l) = kv.1 :: keys l := rfl

theorem keys_append {α : Type} (l r : List (String × α)) :
    keys (l ++ r) = keys l ++ keys r := by
  simp [keys]

theorem lookup_insert {α : Type} (m : List (String × α)) (k n : String) (v : α) :
    lookup (insert m k v) n = if k = n then some v else lookup m n := by
  induction m with
  | nil => simp [insert, lookup]
  | cons kv rest ih =>
    obtain ⟨k', v'⟩ := kv
    by_cases hk : k' = k
    · subst hk
      by_cases hn : k' = n <;> simp [insert, lookup, hn]
    · by_cases hn : k' = n
      · subst hn
        have hkn : k ≠ k' := fun h => hk h.symm
        simp [insert, lookup, hk, hkn]
      · simp [insert, lookup, hk, hn, ih]

theorem lookup_eq_none {α : Type} (m : List (String × α)) (n : String) :
    lookup m n = none ↔ n ∉ keys m := by
  induction m with
  | nil => simp [lookup]
  | cons kv rest ih =>
    by_cases h : kv.1 = n
    · simp [lookup, h]
    · have hn : n ≠ kv.1 := fun he => h he.symm
      simp [lookup, h, hn, ih]

theorem lookup_eraseKey {α : Type} (m : List (String × α)) (k n : String) :
    lookup (eraseKey m k) n = if n = k then none else lookup m n := by
  induction m with
  | nil => simp [eraseKey, lookup]
  | cons kv rest ih =>
    by_cases h1 : kv.1 = k
    · have : eraseKey (kv :: rest) k = eraseKey rest k := by
        simp [eraseKey, List.filter, h1]
      rw [this, ih]
      by_cases h2 : n = k
      · simp [h2]
      · have h3 : kv.1 ≠ n := fun he => h2 (he ▸ h1)
        simp [h2, lookup, h3]
    · have : eraseKey (kv :: rest) k = kv :: eraseKey rest k := by
        simp [eraseKey, List.filter, h1]
      rw [this]
      by_cases h2 : kv.1 = n
      · have h3 : n ≠ k := fun he => h1 (h2.trans he)
        simp [lookup, h2, h3]
      · simp [lookup, h2, ih]

theorem lookup_eraseAll {α : Type} (ks : List String) (m : List (String × α))
    (n : String) :
    lookup (eraseAll m ks) n = if n ∈ ks then none else lookup m n := by
  induction ks generalizing m with
  | nil => simp [eraseAll]
  | cons k ks ih =>
    rw [show eraseAll m (k :: ks) = eraseAll (eraseKey m k) ks from rfl, ih,
      lookup_eraseKey]
    by_cases h1 : n ∈ ks <;> by_cases h2 : n = k <;> simp [h1, h2]

theorem updateMap_cons {α : Type} (m : List (String × α)) (kv : String × α)
    (l : List (String × α)) :
    updateMap m (kv :: l) = updateMap (insert m kv.1 kv.2) l := rfl

theorem lookup_updateMap_none {α : Type} (l m : List (String × α)) (n : String)
    (h : lookup l n = none) :
    lookup (updateMap m l) n = lookup m n := by
  induction l generalizing m with
  | nil => rfl
  | cons kv rest ih =>
    obtain ⟨k, v⟩ := kv
    have hk : k ≠ n := by
      intro he
      simp [lookup, he] at h
    have hr : lookup rest n = none := by
      simpa [lookup, hk] using h
    rw [updateMap_cons, ih _ hr, lookup_insert]
    simp [hk]

theorem lookup_updateMap_some {α : Type} (l : List (String × α))
    (hnd : (keys l).Nodup) (m : List (String × α)) (n : String) (v : α)
    (h : lookup l n = some v) :
    lookup (updateMap m l) n = some v := by
  induction l generalizing m with
  | nil => simp [lookup] at h
  | cons kv rest ih =>
    obtain ⟨k, w⟩ := kv
    rw [keys_cons, List.nodup_cons] at hnd
    by_cases hk : k = n
    · subst hk
      have hv : w = v := by simpa [lookup] using h
      subst hv
      have hr : lookup rest k = none := (lookup_eq_none rest k).mpr hnd.1
      rw [updateMap_cons, lookup_updateMap_none _ _ _ hr, lookup_insert]
      simp
    · have h1 : lookup rest n = some v := by simpa [lookup, hk] using h
      rw [updateMap_cons]
      exact ih hnd.2 _ h1

/-! Lemmas about the upsert validation loop. -/

theorem mkInfoEntries_cons (n : String) (ns : List String) :
    mkInfoEntries (n :: ns) = ⟨some n⟩ :: mkInfoEntries ns := rfl

theorem build_cons_named (devices : List (String × RESTDevice)) (hurl n : String)
    (rest : List InfoEntry) (acc : List (String × RESTDevice)) :
    build_new_devices devices hurl (⟨some n⟩ :: rest) acc =
      if (lookup acc n).isSome then
        .error (.exn ("Device \"" ++ n ++ "\" exists twice on host " ++ hurl))
      else
        match lookup devices n with
        | some d =>
          if d.host_url ≠ hurl then
            .error (.exn ("Device \"" ++ n ++ "\" already exists for host " ++ d.host_url))
          else
            build_new_devices devices hurl rest (acc ++ [(n, mkRESTDevice n hurl)])
        | none =>
          build_new_devices devices hurl rest (acc ++ [(n, mkRESTDevice n hurl)]) := rfl

theorem build_ok (devices : List (String × RESTDevice)) (hurl : String) :
    ∀ (names : List String) (acc : List (String × RESTDevice)),
    (keys acc ++ names).Nodup →
    (∀ n ∈ names, ∀ d, lookup devices n = some d → d.host_url = hurl) →
    build_new_devices devices hurl (mkInfoEntries names) acc =
      .ok (acc ++ names.map (fun n => (n, mkRESTDevice n hurl))) := by
  intro names
  induction names with
  | nil =>
    intro acc _ _
    simp [mkInfoEntries, build_new_devices]
  | cons n ns ih =>
    intro acc hnd hcf
    have hdisj := (List.nodup_append.mp hnd).2.2
    have hmem : n ∉ keys acc := fun hm => hdisj hm (List.mem_cons_self n ns)
    have hla : lookup acc n = none := (lookup_eq_none acc n).mpr hmem
    have hnd' : (keys (acc ++ [(n, mkRESTDevice n hurl)]) ++ ns).Nodup := by
      rw [keys_append]
      have hsame : (keys acc ++ keys [(n, mkRESTDevice n hurl)]) ++ ns =
          keys acc ++ n :: ns := by simp
      rw [hsame]
      exact hnd
    have hcf' : ∀ m ∈ ns, ∀ d, lookup devices m = some d → d.host_url = hurl :=
      fun m hm => hcf m (List.mem_cons_of_mem n hm)
    have hrec := ih (acc ++ [(n, mkRESTDevice n hurl)]) hnd' hcf'
    rw [mkInfoEntries_cons, build_cons_named, hla]
    simp only [Option.isSome_none, Bool.false_eq_true, if_false]
    cases hd : lookup devices n with
    | none =>
      rw [hrec]
      simp
    | some d =>
      have heq : d.host_url = hurl := hcf n (List.mem_cons_self n ns) d hd
      dsimp only
      rw [if_neg (by simp [heq]), hrec]
      simp

theorem build_dup (devices : List (String × RESTDevice)) (hurl : String) :
    ∀ (names : List String) (acc : List (String × RESTDevice)),
    (keys acc).Nodup →
    (∀ n ∈ names, ∀ d, lookup devices n = some d → d.host_url = hurl) →
    ¬ (keys acc ++ names).Nodup →
    ∃ n, build_new_devices devices hurl (mkInfoEntries names) acc =
      .error (.exn ("Device \"" ++ n ++ "\" exists twice on host " ++ hurl)) := by
  intro names
  induction names with
  | nil =>
    intro acc hacc _ hnd
    exact absurd (by simpa using hacc) hnd
  | cons n ns ih =>
    intro acc hacc hcf hnd
    by_cases hm : n ∈ keys acc
    · refine ⟨n, ?_⟩
      have : (lookup acc n).isSome := by
        cases hl : lookup acc n with
        | none => exact absurd ((lookup_eq_none acc n).mp hl) (by simpa using hm)
        | some v => rfl
      rw [mkInfoEntries_cons, build_cons_named, if_pos this]
    · have hla : lookup acc n = none := (lookup_eq_none acc n).mpr hm
      have hacc' : (keys (acc ++ [(n, mkRESTDevice n hurl)])).Nodup := by
        rw [keys_append]
        refine List.nodup_append.mpr ⟨hacc, by simp, ?_⟩
        intro a ha hb
        have : a = n := by simpa using hb
        exact hm (this ▸ ha)
      have hnd' : ¬ (keys (acc ++ [(n, mkRESTDevice n hurl)]) ++ ns).Nodup := by
        rw [keys_append]
        have hsame : (keys acc ++ keys [(n, mkRESTDevice n hurl)]) ++ ns =
            keys acc ++ n :: ns := by simp
        rw [hsame]
        exact hnd
      have hcf' : ∀ m ∈ ns, ∀ d, lookup devices m = some d → d.host_url = hurl :=
        fun m hmm => hcf m (List.mem_cons_of_mem n hmm)
      obtain ⟨n0, hrec⟩ := ih (acc ++ [(n, mkRESTDevice n hurl)]) hacc' hcf' hnd'
      refine ⟨n0, ?_⟩
      rw [mkInfoEntries_cons, build_cons_named, hla]
      simp only [Option.isSome_none, Bool.false_eq_true, if_false]
      cases hd : lookup devices n with
      | none => exact hrec
      | some d =>
        have heq : d.host_url = hurl := hcf n (List.mem_cons_self n ns) d hd
        dsimp only
        rw [if_neg (by simp [heq])]
        exact hrec

theorem build_conflict (devices : List (String × RESTDevice)) (hurl : String) :
    ∀ (names : List String) (acc : List (String × RESTDevice)),
    (keys acc ++ names).Nodup →
    (∃ n ∈ names, ∃ d, lookup devices n = some d ∧ d.host_url ≠ hurl) →
    ∃ n d, lookup devices n = some d ∧ d.host_url ≠ hurl ∧
      build_new_devices devices hurl (mkInfoEntries names) acc =
        .error (.exn ("Device \"" ++ n ++ "\" already exists for host " ++ d.host_url)) := by
  intro names
  induction names with
  | nil =>
    intro acc _ hex
    simp at hex
  | cons n ns ih =>
    intro acc hnd hex
    have hdisj := (List.nodup_append.mp hnd).2.2
    have hmem : n ∉ keys acc := fun hm => hdisj hm (List.mem_cons_self n ns)
    have hla : lookup acc n = none := (lookup_eq_none acc n).mpr hmem
    cases hd : lookup devices n with
    | some d =>
      by_cases hne : d.host_url = hurl
      · obtain ⟨m, hm, d', hd', hne'⟩ := hex
        have hmn : m ∈ ns := by
          rcases List.mem_cons.mp hm with he | hs
          · subst he
            rw [hd] at hd'
            cases hd'
            exact absurd hne hne'
          · exact hs
        have hnd' : (keys (acc ++ [(n, mkRESTDevice n hurl)]) ++ ns).Nodup := by
          rw [keys_append]
          have hsame : (keys acc ++ keys [(n, mkRESTDevice n hurl)]) ++ ns =
              keys acc ++ n :: ns := by simp
          rw [hsame]
          exact hnd
        obtain ⟨n0, d0, h1, h2, h3⟩ :=
          ih (acc ++ [(n, mkRESTDevice n hurl)]) hnd' ⟨m, hmn, d', hd', hne'⟩
        refine ⟨n0, d0, h1, h2, ?_⟩
        rw [mkInfoEntries_cons, build_cons_named, hla]
        simp only [Option.isSome_none, Bool.false_eq_true, if_false]
        rw [hd]
        dsimp only
        rw [if_neg (by simp [hne])]
        exact h3
      · refine ⟨n, d, hd, hne, ?_⟩
        rw [mkInfoEntries_cons, build_cons_named, hla]
        simp only [Option.isSome_none, Bool.false_eq_true, if_false]
        rw [hd]
        dsimp only
        rw [if_pos hne]
    | none =>
      obtain ⟨m, hm, d', hd', hne'⟩ := hex
      have hmn : m ∈ ns := by
        rcases List.mem_cons.mp hm with he | hs
        · subst he
          rw [hd] at hd'
          cases hd'
        · exact hs
      have hnd' : (keys (acc ++ [(n, mkRESTDevice n hurl)]) ++ ns).Nodup := by
        rw [keys_append]
        have hsame : (keys acc ++ keys [(n, mkRESTDevice n hurl)]) ++ ns =
            keys acc ++ n :: ns := by simp
        rw [hsame]
        exact hnd
      obtain ⟨n0, d0, h1, h2, h3⟩ :=
        ih (acc ++ [(n, mkRESTDevice n hurl)]) hnd' ⟨m, hmn, d', hd', hne'⟩
      refine ⟨n0, d0, h1, h2, ?_⟩
      rw [mkInfoEntries_cons, build_cons_named, hla]
      simp only [Option.isSome_none, Bool.false_eq_true, if_false]
      rw [hd]
      exact h3

/-! Lemmas about the register phase of `upsert_host`. -/

theorem register_of_build_error (s : EngineState) (url : String)
    (entries : List InfoEntry) (e : PyErr)
    (hb : build_new_devices s.devices (normalizeUrl url) entries [] = .error e) :
    upsert_host_register s url (.ok entries) = (s, some e) := by
  simp [upsert_host_register, hb]

theorem register_of_build_ok (s : EngineState) (url : String)
    (entries : List InfoEntry) (newDevs : List (String × RESTDevice))
    (hb : build_new_devices s.devices (normalizeUrl url) entries [] = .ok newDevs) :
    upsert_host_register s url (.ok entries) =
      ({ s with
          devices := updateMap
            (match lookup s.hosts (normalizeUrl url) with
              | some oldHost => eraseAll s.devices oldHost.devices
              | none => s.devices) newDevs,
          hosts := insert s.hosts (normalizeUrl url)
            (mkHost (normalizeUrl url) (keys newDevs)) }, none) := by
  simp [upsert_host_register, hb]

theorem register_error_id (s : EngineState) (url : String) (info : InfoOutcome)
    (e : PyErr) (h : (upsert_host_register s url info).2 = some e) :
    upsert_host_register s url info = (s, some e) := by
  cases info with
  | fetchFail e' =>
    have he : e' = e := by
      simpa [upsert_host_register] using h
    subst he
    rfl
  | ok entries =>
    cases hb : build_new_devices s.devices (normalizeUrl url) entries [] with
    | error e' =>
      have he : e' = e := by
        rw [register_of_build_error s url entries e' hb] at h
        simpa using h
      subst he
      exact register_of_build_error s url entries e' hb
    | ok newDevs =>
      rw [register_of_build_ok s url entries newDevs hb] at h
      simp at h

/-- C1: host upsert satisfies the strong exception guarantee.  Every
failure the claim enumerates — a duplicate device name in the fetched
inventory, a cross-host device conflict, or a failure to fetch/parse the
inventory (including an entry without a name) — is an error exit of the
register phase (engine.py lines 57-90), which precede every state
mutation; whenever that phase fails, the full `upsert_host` call returns
with the `hosts` and `devices` maps identical to their pre-call values
and re-raises that error. -/
theorem upsert_host_strong_guarantee (s : EngineState) (url : String)
    (info : InfoOutcome) (resp : String → FetchOutcome) (e : PyErr)
    (hfail : (upsert_host_register s url info).2 = some e) :
    (upsert_host s url info resp).1.hosts = s.hosts ∧
    (upsert_host s url info resp).1.devices = s.devices ∧
    (upsert_host s url info resp).2 = some e := by
  have hreg := register_error_id s url info e hfail
  simp [upsert_host, hreg]

/-- Witness for C1 at a concrete duplicate-device failure. -/
theorem upsert_host_strong_guarantee_witness :
    (upsert_host ⟨[], [], []⟩ "a" (.ok (mkInfoEntries ["x", "x"]))
      (fun _ => .unreachable)).1.hosts = [] ∧
    (upsert_host ⟨[], [], []⟩ "a" (.ok (mkInfoEntries ["x", "x"]))
      (fun _ => .unreachable)).1.devices = [] ∧
    (upsert_host ⟨[], [], []⟩ "a" (.ok (mkInfoEntries ["x", "x"]))
      (fun _ => .unreachable)).2 =
      some (.exn "Device \"x\" exists twice on host http://a") :=
  upsert_host_strong_guarantee ⟨[], [], []⟩ "a" (.ok (mkInfoEntries ["x", "x"]))
    (fun _ => .unreachable) (.exn "Device \"x\" exists twice on host http://a")
    (by decide)

/-- C2: host upsert raises exactly when validation fails.  Over an
all-named inventory: (a) a repeated device name makes the register phase
fail with the duplicate-device message naming the (normalized) host;
(b) a device name owned by a different registered host makes it fail
with the conflict message naming the clashing host; (c) re-registering
an already-registered host whose inventory only reuses names it already
owns (or fresh ones) passes validation — the update path raises
nothing. -/
theorem upsert_host_validation (s : EngineState) (url : String)
    (names : List String) :
    ((∀ n ∈ names, ∀ d, lookup s.devices n = some d →
        d.host_url = normalizeUrl url) →
      ¬ names.Nodup →
      ∃ n, (upsert_host_register s url (.ok (mkInfoEntries names))).2 =
        some (.exn ("Device \"" ++ n ++ "\" exists twice on host " ++
          normalizeUrl url))) ∧
    (names.Nodup →
      (∃ n ∈ names, ∃ d, lookup s.devices n = some d ∧
        d.host_url ≠ normalizeUrl url) →
      ∃ n d, lookup s.devices n = some d ∧ d.host_url ≠ normalizeUrl url ∧
        (upsert_host_register s url (.ok (mkInfoEntries names))).2 =
          some (.exn ("Device \"" ++ n ++ "\" already exists for host " ++
            d.host_url))) ∧
    ((lookup s.hosts (normalizeUrl url)).isSome →
      names.Nodup →
      (∀ n ∈ names, ∀ d, lookup s.devices n = some d →
        d.host_url = normalizeUrl url) →
      (upsert_host_register s url (.ok (mkInfoEntries names))).2 = none) := by
  refine ⟨?_, ?_, ?_⟩
  · intro hcf hnd
    obtain ⟨n, hb⟩ := build_dup s.devices (normalizeUrl url) names []
      (by simp) hcf (by simpa using hnd)
    exact ⟨n, by rw [register_of_build_error s url _ _ hb]⟩
  · intro hnd hex
    obtain ⟨n, d, h1, h2, hb⟩ := build_conflict s.devices (normalizeUrl url)
      names [] (by simpa using hnd) hex
    exact ⟨n, d, h1, h2, by rw [register_of_build_error s url _ _ hb]⟩
  · intro _ hnd hcf
    have hb := build_ok s.devices (normalizeUrl url) names []
      (by simpa using hnd) hcf
    rw [register_of_build_ok s url _ _ (by simpa using hb)]

/-- Witness for C2: host A owns device x; registering host B with
device x is a conflict naming A; registering B with a repeated name
fails with the duplicate message; re-registering A with x again passes
validation. -/
theorem upsert_host_validation_witness :
    (∃ n, (upsert_host_register
        ⟨[("http://a", mkHost "http://a" ["x"])],
         [("x", mkRESTDevice "x" "http://a")], []⟩ "b"
        (.ok (mkInfoEntries ["y", "y"]))).2 =
      some (.exn ("Device \"" ++ n ++ "\" exists twice on host " ++
        normalizeUrl "b"))) ∧
    (∃ n d, lookup [("x", mkRESTDevice "x" "http://a")] n = some d ∧
      d.host_url ≠ normalizeUrl "b" ∧
      (upsert_host_register
        ⟨[("http://a", mkHost "http://a" ["x"])],
         [("x", mkRESTDevice "x" "http://a")], []⟩ "b"
        (.ok (mkInfoEntries ["x"]))).2 =
      some (.exn ("Device \"" ++ n ++ "\" already exists for host " ++
        d.host_url))) ∧
    (upsert_host_register
        ⟨[("http://a", mkHost "http://a" ["x"])],
         [("x", mkRESTDevice "x" "http://a")], []⟩ "a"
        (.ok (mkInfoEntries ["x"]))).2 = none :=
  ⟨(upsert_host_validation
      ⟨[("http://a", mkHost "http://a" ["x"])],
       [("x", mkRESTDevice "x" "http://a")], []⟩ "b" ["y", "y"]).1
      (by decide) (by decide),
   (upsert_host_validation
      ⟨[("http://a", mkHost "http://a" ["x"])],
       [("x", mkRESTDevice "x" "http://a")], []⟩ "b" ["x"]).2.1
      (by decide) ⟨"x", by decide, mkRESTDevice "x" "http://a", by decide, by decide⟩,
   (upsert_host_validation
      ⟨[("http://a", mkHost "http://a" ["x"])],
       [("x", mkRESTDevice "x" "http://a")], []⟩ "a" ["x"]).2.2
      (by decide) (by decide) (by decide)⟩

/-- C3: successful re-upsert of an already-registered host.  With the
validation loop succeeding with device list `newDevs`, the register
phase (engine.py lines 94-102) first deletes every device previously
owned by the host from the global device map, then installs `newDevs`
both as the global-map entries and, by name, as the owned set of the host record; hosts under other URLs and devices neither previously owned nor
re-fetched keep their exact previous bindings, and the stored host
record is a fresh `_Host` whose `connected` is false and whose `error`
is cleared. -/
theorem upsert_host_reregistration (s : EngineState) (url : String)
    (entries : List InfoEntry) (oldHost : Host)
    (newDevs : List (String × RESTDevice))
    (hh : lookup s.hosts (normalizeUrl url) = some oldHost)
    (hb : build_new_devices s.devices (normalizeUrl url) entries [] = .ok newDevs)
    (hnd : (keys newDevs).Nodup) :
    ∃ s2, upsert_host_register s url (.ok entries) = (s2, none) ∧
      lookup s2.hosts (normalizeUrl url) =
        some (mkHost (normalizeUrl url) (keys newDevs)) ∧
      (∀ u, u ≠ normalizeUrl url → lookup s2.hosts u = lookup s.hosts u) ∧
      (∀ n ∈ oldHost.devices, lookup newDevs n = none →
        lookup s2.devices n = none) ∧
      (∀ n v, lookup newDevs n = some v → lookup s2.devices n = some v) ∧
      (∀ n, n ∉ oldHost.devices → lookup newDevs n = none →
        lookup s2.devices n = lookup s.devices n) := by
  refine ⟨{ s with
      devices := updateMap (eraseAll s.devices oldHost.devices) newDevs,
      hosts := insert s.hosts (normalizeUrl url)
        (mkHost (normalizeUrl url) (keys newDevs)) }, ?_, ?_, ?_, ?_, ?_, ?_⟩
  · rw [register_of_build_ok s url entries newDevs hb, hh]
  · show lookup (insert s.hosts (normalizeUrl url)
      (mkHost (normalizeUrl url) (keys newDevs))) (normalizeUrl url) = _
    rw [lookup_insert]
    simp
  · intro u hu
    show lookup (insert s.hosts (normalizeUrl url)
      (mkHost (normalizeUrl url) (keys newDevs))) u = lookup s.hosts u
    rw [lookup_insert, if_neg (Ne.symm hu)]
  · intro n hn hnone
    show lookup (updateMap (eraseAll s.devices oldHost.devices) newDevs) n = none
    rw [lookup_updateMap_none _ _ _ hnone, lookup_eraseAll, if_pos hn]
  · intro n v hv
    exact lookup_updateMap_some newDevs hnd _ n v hv
  · intro n hn hnone
    show lookup (updateMap (eraseAll s.devices oldHost.devices) newDevs) n =
      lookup s.devices n
    rw [lookup_updateMap_none _ _ _ hnone, lookup_eraseAll, if_neg hn]

/-- Witness for C3: host A owned x and re-registers with z only, while
host B owns y; x is gone from the device map, z is installed, y and the
record of B are untouched, and the record of A is reset clean. -/
theorem upsert_host_reregistration_witness :
    ∃ s2, upsert_host_register stateAB "a"
        (.ok (mkInfoEntries ["z"])) = (s2, none) ∧
      lookup s2.hosts (normalizeUrl "a") =
        some (mkHost (normalizeUrl "a")
          (keys [("z", mkRESTDevice "z" "http://a")])) ∧
      (∀ u, u ≠ normalizeUrl "a" →
        lookup s2.hosts u = lookup stateAB.hosts u) ∧
      (∀ n ∈ hostErrA.devices, lookup [("z", mkRESTDevice "z" "http://a")] n = none →
        lookup s2.devices n = none) ∧
      (∀ n v, lookup [("z", mkRESTDevice "z" "http://a")] n = some v →
        lookup s2.devices n = some v) ∧
      (∀ n, n ∉ hostErrA.devices →
        lookup [("z", mkRESTDevice "z" "http://a")] n = none →
        lookup s2.devices n = lookup stateAB.devices n) :=
  upsert_host_reregistration stateAB "a" (mkInfoEntries ["z"]) hostErrA
    [("z", mkRESTDevice "z" "http://a")]
    (by decide) (by decide) (by decide)

/-- C4 (code bug): host error state does NOT propagate to owned devices.
`_Host.devices` holds device names (strings), so the propagation loops
of `on_error` and `on_no_error` assign an attribute on a `str`: for a
host owning one device, entering error state stores the host message and
then raises `AttributeError` without marking any device, and recovering
clears the host error and then raises the same way without clearing any
device error. -/
theorem host_error_propagation_bug :
    Host.on_error (mkHost "http://a" ["x"]) "down" =
      ({ url := "http://a", connected := false, error := some "down",
         devices := ["x"] },
       some (.attributeError "str object has no attribute error")) ∧
    Host.on_no_error hostErrA =
      ({ url := "http://a", connected := true, error := none, devices := ["x"] },
       some (.attributeError "str object has no attribute error")) := by
  decide

/-- C5 (code bug): the refresh failure of a single host aborts the whole
value-refresh pass.  With hosts a (owning device x) and b registered and
b answering with a perfectly valid body: if the body of a fails to parse
as JSON, the handler formats its message with the undefined name `url`
(engine.py line 191) and the pass stops with a `NameError` before b is
refreshed (its record still shows `connected := false`); if a is
unreachable, `on_error` raises `AttributeError` (see the C4 theorem) and
the pass stops the same way.  Neither error is caught by `run`, which
only catches `KeyboardInterrupt`. -/
theorem refresh_failure_propagates_bug :
    (update_devices_values stateTwo
      (fun u => if u = "http://a" then .badJson
        else .parsed { error := none, devices := some [] })).2 =
      some (.nameError "url") ∧
    lookup (update_devices_values stateTwo
      (fun u => if u = "http://a" then .badJson
        else .parsed { error := none, devices := some [] })).1.hosts "http://b" =
      some (mkHost "http://b" []) ∧
    (update_devices_values stateTwo
      (fun u => if u = "http://a" then .unreachable
        else .parsed { error := none, devices := some [] })).2 =
      some (.attributeError "str object has no attribute error") ∧
    lookup (update_devices_values stateTwo
      (fun u => if u = "http://a" then .unreachable
        else .parsed { error := none, devices := some [] })).1.hosts "http://b" =
      some (mkHost "http://b" []) := by
  decide

/-- C9 (code bug): enabling or disabling a module never toggles
anything.  Both methods first evaluate `module_name in modules`, where
`modules` is an undefined global name (the map lives at `self.modules`),
so every call — known module name or not — raises `NameError` and leaves
the engine state untouched. -/
theorem module_toggle_name_bug (s : EngineState) (module_name : String) :
    enable_switchboard_module s module_name = (s, some (.nameError "modules")) ∧
    disable_switchboard_module s module_name = (s, some (.nameError "modules")) :=
  ⟨rfl, rfl⟩

/-- C10: a structurally valid values entry whose name is unknown to the
engine is not handled.  The response passes
`_check_values_json_formatting`, and applying it hits the unguarded
lookup `self.devices[device_json["name"]]`, so the refresh pass raises
`KeyError` instead of skipping the entry or recording an error, leaving
the device map as it was. -/
theorem unknown_device_lookup_raises :
    check_values_json_formatting "http://a" ghostValues = none ∧
    (update_devices_values stateOne (fun _ => .parsed ghostValues)).2 =
      some (.keyError "ghost") ∧
    (update_devices_values stateOne (fun _ => .parsed ghostValues)).1.devices =
      stateOne.devices := by
  decide

/-! Lemmas about URL normalization. -/

theorem string_data_append (s t : String) : (s ++ t).data = s.data ++ t.data := by
  cases s
  cases t
  rfl

theorem isPrefixOf_self_append (l r : List Char) : l.isPrefixOf (l ++ r) = true := by
  induction l with
  | nil => simp [List.isPrefixOf]
  | cons a as ih => simp [List.isPrefixOf, ih]

theorem startsWithHttp_prepend (u : String) :
    startsWithHttp ("http://" ++ u) = true := by
  unfold startsWithHttp
  rw [string_data_append]
  exact isPrefixOf_self_append _ _

/-- C6 counterexample: the URL `https://h` already carries a scheme
prefix, yet upsert does not register it unchanged — only the literal
prefix `http://` is recognized, so the stored host key becomes
`http://https://h` and no entry exists under `https://h`. -/
theorem scheme_prefix_counterexample :
    normalizeUrl "https://h" = "http://https://h" ∧
    lookup (upsert_host_register ⟨[], [], []⟩ "https://h" (.ok [])).1.hosts
      "http://https://h" = some (mkHost "http://https://h" []) ∧
    lookup (upsert_host_register ⟨[], [], []⟩ "https://h" (.ok [])).1.hosts
      "https://h" = none := by
  decide

/-- C6 as amended: the normalization only tests for the literal prefix
`http://`.  The normalized URL always starts with `http://`; an input
that already starts with `http://` is kept verbatim (and any other
input, even one carrying a different scheme such as `https://`, gets
`http://` prepended); a successful register stores the host under the
normalized URL, whose record carries that URL. -/
theorem scheme_prefix_normalization (s : EngineState) (url : String)
    (info : InfoOutcome) :
    startsWithHttp (normalizeUrl url) = true ∧
    (startsWithHttp url = true → normalizeUrl url = url) ∧
    (∀ s2, upsert_host_register s url info = (s2, none) →
      ∃ h, lookup s2.hosts (normalizeUrl url) = some h ∧
        h.url = normalizeUrl url) := by
  refine ⟨?_, ?_, ?_⟩
  · unfold normalizeUrl
    by_cases h : startsWithHttp url
    · simp [h]
    · simp [h, startsWithHttp_prepend]
  · intro h
    simp [normalizeUrl, h]
  · intro s2 hreg
    cases info with
    | fetchFail e => simp [upsert_host_register] at hreg
    | ok entries =>
      cases hb : build_new_devices s.devices (normalizeUrl url) entries [] with
      | error e =>
        rw [register_of_build_error s url entries e hb] at hreg
        simp at hreg
      | ok newDevs =>
        rw [register_of_build_ok s url entries newDevs hb] at hreg
        obtain ⟨hs2, -⟩ := Prod.mk.injEq .. ▸ hreg
        refine ⟨mkHost (normalizeUrl url) (keys newDevs), ?_, rfl⟩
        rw [← hs2]
        show lookup (insert s.hosts (normalizeUrl url)
          (mkHost (normalizeUrl url) (keys newDevs))) (normalizeUrl url) = _
        rw [lookup_insert]
        simp

/-- Witness for C6 as amended, at the inputs of the counterexample and
at an input already carrying the recognized prefix. -/
theorem scheme_prefix_normalization_witness :
    startsWithHttp (normalizeUrl "https://h") = true ∧
    (startsWithHttp "http://a" = true → normalizeUrl "http://a" = "http://a") ∧
    (∀ s2, upsert_host_register ⟨[], [], []⟩ "https://h" (.ok []) = (s2, none) →
      ∃ h, lookup s2.hosts (normalizeUrl "https://h") = some h ∧
        h.url = normalizeUrl "https://h") :=
  ⟨(scheme_prefix_normalization ⟨[], [], []⟩ "https://h" (.ok [])).1,
   (scheme_prefix_normalization ⟨[], [], []⟩ "http://a" (.ok [])).2.1,
   (scheme_prefix_normalization ⟨[], [], []⟩ "https://h" (.ok [])).2.2⟩

/-! Lemmas about the values-response validation. -/

theorem check_device_entries_cons (url : String) (e : DeviceEntry)
    (rest : List DeviceEntry) :
    check_device_entries url (e :: rest) =
      match e.name with
      | none => some ("Error for host " ++ url ++ ": found device with no name")
      | some n =>
        if e.value.isNone && e.error.isNone then
          some ("Error for host " ++ url ++ ": device " ++ n ++
            " has no value or error field")
        else check_device_entries url rest := rfl

theorem check_device_entries_append (url : String) (pre l : List DeviceEntry)
    (hok : ∀ p ∈ pre, p.name.isSome ∧ (p.value.isSome ∨ p.error.isSome)) :
    check_device_entries url (pre ++ l) = check_device_entries url l := by
  induction pre with
  | nil => rfl
  | cons p ps ih =>
    have hp := hok p (List.mem_cons_self p ps)
    obtain ⟨n, hn⟩ := Option.isSome_iff_exists.mp hp.1
    have hcond : (p.value.isNone && p.error.isNone) = false := by
      rcases hp.2 with hv | he
      · obtain ⟨v, hveq⟩ := Option.isSome_iff_exists.mp hv
        simp [hveq]
      · obtain ⟨e0, heeq⟩ := Option.isSome_iff_exists.mp he
        simp [heeq]
    rw [List.cons_append, check_device_entries_cons, hn]
    dsimp only
    rw [if_neg (by simp [hcond])]
    exact ih (fun q hq => hok q (List.mem_cons_of_mem p hq))

theorem on_error_of_ok (h : Host) (msg : String) (herr : h.error = none) :
    (h.on_error msg).1 = { h with error := some msg } := by
  cases hdev : h.devices with
  | nil => simp [Host.on_error, truthy, herr, hdev]
  | cons a l => simp [Host.on_error, truthy, herr, hdev]

theorem refresh_host_check_fail (devs : List (String × RESTDevice)) (h : Host)
    (vj : ValuesJson) (msg : String) (herr : h.error = none)
    (hc : check_values_json_formatting h.url vj = some msg) :
    (refresh_host devs h (.parsed vj)).1 =
      { h with connected := true, error := some msg } ∧
    (refresh_host devs h (.parsed vj)).2.1 = devs := by
  have h1err : ({ h with connected := true } : Host).error = none := herr
  have hfst := on_error_of_ok { h with connected := true } msg h1err
  constructor <;> simp [refresh_host, hc, hfst]

/-- C7: structural validation of a parsed values response fires in
order with the first failure winning — (a) a top-level `error` field,
(b) a missing `devices` field, (c) the first entry without a `name`
(earlier entries all well formed), (d) the first entry with neither
`value` nor `error` — each with its exact message; and whenever
validation fails on a host with no pre-existing error, the refresh step
stores that message as the host error and applies no device value. -/
theorem values_validation_order (h : Host) (devs : List (String × RESTDevice))
    (vj : ValuesJson) :
    (∀ e, vj.error = some e →
      check_values_json_formatting h.url vj =
        some ("Error for host " ++ h.url ++ ": " ++ e)) ∧
    (vj.error = none → vj.devices = none →
      check_values_json_formatting h.url vj =
        some ("Error for host " ++ h.url ++ ": no \"devices\" field")) ∧
    (∀ pre entry post, vj.error = none →
      vj.devices = some (pre ++ entry :: post) →
      (∀ p ∈ pre, p.name.isSome ∧ (p.value.isSome ∨ p.error.isSome)) →
      entry.name = none →
      check_values_json_formatting h.url vj =
        some ("Error for host " ++ h.url ++ ": found device with no name")) ∧
    (∀ pre entry post n, vj.error = none →
      vj.devices = some (pre ++ entry :: post) →
      (∀ p ∈ pre, p.name.isSome ∧ (p.value.isSome ∨ p.error.isSome)) →
      entry.name = some n → entry.value = none → entry.error = none →
      check_values_json_formatting h.url vj =
        some ("Error for host " ++ h.url ++ ": device " ++ n ++
          " has no value or error field")) ∧
    (∀ msg, h.error = none →
      check_values_json_formatting h.url vj = some msg →
      (refresh_host devs h (.parsed vj)).1 =
        { h with connected := true, error := some msg } ∧
      (refresh_host devs h (.parsed vj)).2.1 = devs) := by
  refine ⟨?_, ?_, ?_, ?_, ?_⟩
  · intro e he
    simp [check_values_json_formatting, he]
  · intro he hd
    simp [check_values_json_formatting, he, hd]
  · intro pre entry post he hd hok hname
    simp only [check_values_json_formatting, he, hd]
    rw [check_device_entries_append _ _ _ hok, check_device_entries_cons, hname]
  · intro pre entry post n he hd hok hname hval herrf
    simp only [check_values_json_formatting, he, hd]
    rw [check_device_entries_append _ _ _ hok, check_device_entries_cons, hname]
    dsimp only
    rw [if_pos (by simp [hval, herrf])]
  · intro msg herr hc
    exact refresh_host_check_fail devs h vj msg herr hc

/-- Witness for C7 at concrete responses: a top-level error, a missing
devices field, a nameless second entry behind one good entry, an entry
with neither value nor error, and the resulting host-error transition
with untouched devices. -/
theorem values_validation_order_witness :
    check_values_json_formatting "http://a" ⟨some "down", none⟩ =
      some "Error for host http://a: down" ∧
    check_values_json_formatting "http://a" ⟨none, none⟩ =
      some "Error for host http://a: no \"devices\" field" ∧
    check_values_json_formatting "http://a"
      ⟨none, some [⟨some "g", some "1", none⟩, ⟨none, some "2", none⟩]⟩ =
      some "Error for host http://a: found device with no name" ∧
    check_values_json_formatting "http://a"
      ⟨none, some [⟨some "d", none, none⟩]⟩ =
      some "Error for host http://a: device d has no value or error field" ∧
    ((refresh_host [] (mkHost "http://a" []) (.parsed ⟨some "down", none⟩)).1 =
      { url := "http://a", connected := true,
        error := some "Error for host http://a: down", devices := [] } ∧
     (refresh_host [] (mkHost "http://a" []) (.parsed ⟨some "down", none⟩)).2.1 =
      []) :=
  ⟨(values_validation_order (mkHost "http://a" []) [] ⟨some "down", none⟩).1
      "down" rfl,
   (values_validation_order (mkHost "http://a" []) [] ⟨none, none⟩).2.1 rfl rfl,
   (values_validation_order (mkHost "http://a" [])  []
      ⟨none, some [⟨some "g", some "1", none⟩, ⟨none, some "2", none⟩]⟩).2.2.1
      [⟨some "g", some "1", none⟩] ⟨none, some "2", none⟩ [] rfl rfl
      (by decide) rfl,
   (values_validation_order (mkHost "http://a" []) []
      ⟨none, some [⟨some "d", none, none⟩]⟩).2.2.2.1
      [] ⟨some "d", none, none⟩ [] "d" rfl rfl (by decide) rfl rfl rfl,
   (values_validation_order (mkHost "http://a" []) [] ⟨some "down", none⟩).2.2.2.2
      "Error for host http://a: down" rfl (by decide)⟩

/-- C8: remote device write is fire-and-report.  The serialized payload
carries exactly the device name and the written value, the PUT goes to
the `/device_set` endpoint of the owning host, engine state is returned
untouched in every case, and once a response is obtained (whether its
body parses or not) nothing is raised: a parse failure and a parsed
`error` field are only printed. -/
theorem remote_write_fire_and_report (s : EngineState) (d : RESTDevice)
    (v : String) (r : PutOutcome) :
    (set_remote_device_value s d v r).1 = s ∧
    (set_remote_device_value s d v r).2.1 =
      { url := d.host_url ++ "/device_set",
        payload := { name := d.name, value := v } } ∧
    (r ≠ .unreachable → (set_remote_device_value s d v r).2.2.2 = none) ∧
    (∀ c, r = .badBody c → (set_remote_device_value s d v r).2.2.1 ≠ []) ∧
    (∀ e, r = .parsed (some e) → (set_remote_device_value s d v r).2.2.1 ≠ []) := by
  cases r with
  | unreachable => simp [set_remote_device_value]
  | badBody c => simp [set_remote_device_value]
  | parsed e => cases e <;> simp [set_remote_device_value]

/-- Witness for C8 at a concrete device and a response carrying an
error field. -/
theorem remote_write_fire_and_report_witness :
    (set_remote_device_value stateOne (mkRESTDevice "x" "http://a") "5"
      (.parsed (some "boom"))).1 = stateOne ∧
    (set_remote_device_value stateOne (mkRESTDevice "x" "http://a") "5"
      (.parsed (some "boom"))).2.2.2 = none ∧
    (set_remote_device_value stateOne (mkRESTDevice "x" "http://a") "5"
      (.parsed (some "boom"))).2.2.1 ≠ [] :=
  ⟨(remote_write_fire_and_report stateOne (mkRESTDevice "x" "http://a") "5"
      (.parsed (some "boom"))).1,
   (remote_write_fire_and_report stateOne (mkRESTDevice "x" "http://a") "5"
      (.parsed (some "boom"))).2.2.1 (by decide),
   (remote_write_fire_and_report stateOne (mkRESTDevice "x" "http://a") "5"
      (.parsed (some "boom"))).2.2.2.2 "boom" rfl⟩

end Switchboard

